import Mathlib

/-!
Shallow embedding of the event-synchronization and local-state-cache core of
a Matrix client library (matrix_client/client.py): the room registry, the
initial-sync bootstrap, the incremental poll loop with listener fan-out, and
the room-scoped operations (leave, kick, update_aliases) plus media upload.

Modelling conventions:
* Python dicts keyed by room id become insertion-ordered association lists
  (keys unique); dict assignment replaces in place, missing-key lookup raises
  KeyError.
* JSON response objects become structures whose possibly-absent keys are
  Option fields; reading an absent key raises KeyError.
* Python exceptions become the PyError type; a function that can raise while
  also mutating state returns the state it reached together with an
  Option PyError (Python mutations performed before the raise persist).
* Listener callbacks are opaque: a listener is a numeric id, and a behaviour
  function says whether a given listener raises on a given event.  Dispatch
  is recorded in a trace of invocation / append steps, tagged with the index
  of the chunk being processed.
* The Transport layer (MatrixHttpApi) is external: each operation takes the
  transport outcome as a parameter (an Except of the typed request error).
-/

set_option autoImplicit false

namespace MatrixSDK

/-- Python exceptions that the embedded code can raise.  KeyError carries the
missing key; AttributeError the missing attribute name.  The Matrix exception
classes MatrixRequestError and MatrixUnexpectedResponse live in
matrix_client/api.py, which is not part of the scanned source; modelled from
the spec: they are distinct error kinds, neither a subclass of the other
(a raised MatrixUnexpectedResponse is not caught by an
except-MatrixRequestError handler).  listenerError models an arbitrary
exception raised by a listener callback. -/
inductive PyError where
  | keyError (key : String)
  | attributeError (attr : String)
  | matrixRequestError (code : Nat) (content : String)
  | matrixUnexpectedResponse (content : String)
  | listenerError (lid : Nat)
deriving DecidableEq, Repr

/-- The typed request error raised by the Transport layer (MatrixRequestError
from matrix_client/api.py, carrying a code and message). -/
structure MatrixRequestError where
  code : Nat
  content : String
deriving DecidableEq, Repr

/-- The well-known sub-fields of an event's content object that the client
inspects (content.name, content.topic, content.aliases); each is an Option
because the corresponding key may be absent. -/
structure Content where
  name : Option String
  topic : Option String
  aliases : Option (List String)
deriving DecidableEq, Repr

/-- An event record (a chunk of a sync/stream response): the client inspects
only the type, room_id and content keys, each possibly absent. -/
structure Event where
  type : Option String
  room_id : Option String
  content : Option Content
deriving DecidableEq, Repr

/-- A Room object (class Room in client.py): room id, registered room-scoped
listeners (by id, registration order), the append-only event log, and the
cached name/aliases/topic state.  The back-reference to the owning client is
represented by passing the client explicitly to the operations that use it. -/
structure Room where
  room_id : String
  listeners : List Nat
  events : List Event
  name : Option String
  aliases : List String
  topic : Option String
deriving DecidableEq, Repr

/-- Room.__init__: a blank Room object. -/
def Room.init (room_id : String) : Room :=
  { room_id := room_id, listeners := [], events := [], name := none,
    aliases := [], topic := none }

/-- The room registry: Python dict from room id to Room, as an
insertion-ordered association list with unique keys. -/
abbrev RoomsDict := List (String × Room)

/-- Python dict lookup rooms[key] (first entry with the key). -/
def dictLookup : RoomsDict → String → Option Room
  | [], _ => none
  | (k, v) :: rest, key => if k = key then some v else dictLookup rest key

/-- Python membership test: key in rooms. -/
def dictContains (d : RoomsDict) (key : String) : Bool :=
  (dictLookup d key).isSome

/-- Python dict assignment rooms[key] = v: replaces the value in place when
the key is present, appends otherwise (insertion order preserved). -/
def dictInsert : RoomsDict → String → Room → RoomsDict
  | [], key, v => [(key, v)]
  | (k, v0) :: rest, key, v =>
    if k = key then (key, v) :: rest else (k, v0) :: dictInsert rest key v

/-- The effect of room.events.append(ev) on a Room object. -/
def appendToRoom (ev : Event) (r : Room) : Room :=
  { r with events := r.events ++ [ev] }

/-- rooms[key].events.append(ev): mutates the Room object stored under key
(no-op when the key is absent; the callers establish presence first). -/
def dictAppendEvent : RoomsDict → String → Event → RoomsDict
  | [], _, _ => []
  | (k, r) :: rest, key, ev =>
    if k = key then (k, appendToRoom ev r) :: rest
    else (k, r) :: dictAppendEvent rest key ev

/-- The MatrixClient state the core manipulates: the global listener list
(registration order, by id), the room registry, and the sync cursor self.end
(an Option: the attribute is only set once a sync response has been
processed).  The credential fields (user_id, token, hs) and the api handle
play no part in the claims and are omitted. -/
structure Client where
  listeners : List Nat
  rooms : RoomsDict
  endToken : Option String
deriving DecidableEq, Repr

/-- MatrixClient._mkroom: unconditionally assigns a fresh Room into the
registry under room_id and returns the stored object.  Called by
create_room, join_room, _sync (always) and by listen_for_events (only when
room_id is not yet a registry key). -/
def Client.mkroom (c : Client) (room_id : String) : Client × Room :=
  ({ c with rooms := dictInsert c.rooms room_id (Room.init room_id) },
   Room.init room_id)

/-- MatrixClient._process_state_event: keyed on the event's type, copies
content.name / content.topic / content.aliases into the room's cached state;
events with no type key and events of unknown type are ignored.  Reading an
absent content key raises KeyError; the room is returned unchanged in that
case because the Python assignment happens only after the lookup succeeds. -/
def processStateEvent (state_event : Event) (current_room : Room) :
    Room × Option PyError :=
  match state_event.type with
  | none => (current_room, none)
  | some etype =>
    if etype = "m.room.name" then
      match state_event.content with
      | none => (current_room, some (PyError.keyError "content"))
      | some cont =>
        match cont.name with
        | none => (current_room, some (PyError.keyError "name"))
        | some n => ({ current_room with name := some n }, none)
    else if etype = "m.room.topic" then
      match state_event.content with
      | none => (current_room, some (PyError.keyError "content"))
      | some cont =>
        match cont.topic with
        | none => (current_room, some (PyError.keyError "topic"))
        | some t => ({ current_room with topic := some t }, none)
    else if etype = "m.room.aliases" then
      match state_event.content with
      | none => (current_room, some (PyError.keyError "content"))
      | some cont =>
        match cont.aliases with
        | none => (current_room, some (PyError.keyError "aliases"))
        | some al => ({ current_room with aliases := al }, none)
    else (current_room, none)

/-- One room descriptor of an initial-sync response: the room_id, messages
and state keys, and the chunk key nested under messages, each possibly
absent. -/
structure RoomDescriptor where
  room_id : Option String
  messagesChunk : Option (Option (List Event))
  state : Option (List Event)
deriving DecidableEq, Repr

/-- The initial-sync response: the end cursor token and the rooms list, each
possibly absent. -/
structure InitialSyncResponse where
  endToken : Option String
  rooms : Option (List RoomDescriptor)
deriving DecidableEq, Repr

/-- The inner loops of MatrixClient._sync over the state-event list of one
room descriptor: applies _process_state_event to the current room (mutating
the registry entry), stopping at the first raised error. -/
def processStateEvents (rooms : RoomsDict) (rid : String) :
    List Event → RoomsDict × Option PyError
  | [] => (rooms, none)
  | ev :: rest =>
    match dictLookup rooms rid with
    | none => (rooms, none)
    | some r =>
      match processStateEvent ev r with
      | (r1, some e) => (dictInsert rooms rid r1, some e)
      | (r1, none) => processStateEvents (dictInsert rooms rid r1) rid rest

/-- The loop of MatrixClient._sync over the room descriptors: for each room,
_mkroom (unconditional), append every message chunk to the room's event log,
then apply every state event; a missing key raises KeyError, which aborts
the loop with the state reached so far. -/
def syncRooms (c : Client) : List RoomDescriptor → Client × Option PyError
  | [] => (c, none)
  | rd :: rest =>
    match rd.room_id with
    | none => (c, some (PyError.keyError "room_id"))
    | some rid =>
      let c1 := (c.mkroom rid).1
      match rd.messagesChunk with
      | none => (c1, some (PyError.keyError "messages"))
      | some mc =>
        match mc with
        | none => (c1, some (PyError.keyError "chunk"))
        | some chunks =>
          let c2 := { c1 with
            rooms := chunks.foldl (fun d ev => dictAppendEvent d rid ev) c1.rooms }
          match rd.state with
          | none => (c2, some (PyError.keyError "state"))
          | some sts =>
            match processStateEvents c2.rooms rid sts with
            | (d, some e) => ({ c2 with rooms := d }, some e)
            | (d, none) => syncRooms { c2 with rooms := d } rest

/-- MatrixClient._sync: stores the response's end token as the cursor, then
processes every room descriptor; the whole body sits in a
try/except-KeyError-pass, so any KeyError is swallowed and the state applied
before it is retained.  Returns the resulting client and the error escaping
_sync (always none, since the body raises only KeyError). -/
def Client.sync (c : Client) (response : InitialSyncResponse) :
    Client × Option PyError :=
  let (c1, err) :=
    match response.endToken, response.rooms with
    | none, _ => (c, some (PyError.keyError "end"))
    | some e, none => ({ c with endToken := some e }, some (PyError.keyError "rooms"))
    | some e, some rds => syncRooms { c with endToken := some e } rds
  match err with
  | some (PyError.keyError _) => (c1, none)
  | other => (c1, other)

/-- The event-stream response of one poll: the end cursor token and the
chunk list, each possibly absent. -/
structure EventStreamResponse where
  endToken : Option String
  chunk : Option (List Event)
deriving DecidableEq, Repr

/-- One step of the dispatch trace of listen_for_events, tagged with the
index (in response order) of the chunk being processed: a global listener
invocation, the append of the chunk to a room's event log, or a room-scoped
listener invocation. -/
inductive TraceStep where
  | globalInvoke (chunkIdx lid : Nat)
  | append (chunkIdx : Nat) (rid : String)
  | roomInvoke (chunkIdx lid : Nat)
deriving DecidableEq, Repr

/-- A listener behaviour: behav lid ev is true when listener lid raises an
exception if invoked on event ev. -/
abbrev Behaviour := Nat → Event → Bool

/-- The listener list of the Room registered under rid, or the empty list
when rid is not a registry key (a Room freshly created by _mkroom has no
listeners, so for rooms created during the current poll the two agree). -/
def registryListeners (c : Client) (rid : String) : List Nat :=
  ((dictLookup c.rooms rid).map Room.listeners).getD []

/-- A Python for-loop invoking each listener of the list on ev (the step
constructor mk tags the invocation).  A raising listener is still invoked
(it appears in the trace), but the exception propagates at once, so the
loop stops there and later listeners are not invoked. -/
def runListeners (behav : Behaviour) (mk : Nat → TraceStep) (ev : Event) :
    List Nat → List TraceStep × Option PyError
  | [] => ([], none)
  | lid :: rest =>
    if behav lid ev then ([mk lid], some (PyError.listenerError lid))
    else
      let (tr, err) := runListeners behav mk ev rest
      (mk lid :: tr, err)

/-- The registry mutation the poll loop performs for a chunk carrying
room_id rid: _mkroom only when rid is not yet a registry key, then append
the chunk to that room's event log. -/
def pollRegistryUpdate (c : Client) (rid : String) (ev : Event) : Client :=
  let c1 := if dictContains c.rooms rid then c else (c.mkroom rid).1
  { c1 with rooms := dictAppendEvent c1.rooms rid ev }

/-- The body of listen_for_events for one chunk (index i in response order):
invoke every global listener; then, when the chunk carries a room_id, create
the room if absent (_mkroom), append the chunk to that room's event log, and
invoke every listener of that room.  A listener exception aborts the rest of
the chunk's processing. -/
def processChunk (c : Client) (behav : Behaviour) (i : Nat) (ev : Event) :
    Client × List TraceStep × Option PyError :=
  match runListeners behav (TraceStep.globalInvoke i) ev c.listeners with
  | (tr1, some e) => (c, tr1, some e)
  | (tr1, none) =>
    match ev.room_id with
    | none => (c, tr1, none)
    | some rid =>
      let c2 := pollRegistryUpdate c rid ev
      match runListeners behav (TraceStep.roomInvoke i) ev (registryListeners c2 rid) with
      | (tr3, err3) => (c2, tr1 ++ TraceStep.append i rid :: tr3, err3)

/-- The loop of listen_for_events over the response's chunk list, in server
response order, starting at chunk index i; an exception raised while
processing one chunk aborts the loop (state already applied persists). -/
def processChunks (c : Client) (behav : Behaviour) (i : Nat) :
    List Event → Client × List TraceStep × Option PyError
  | [] => (c, [], none)
  | ev :: rest =>
    match processChunk c behav i ev with
    | (c1, tr1, some e) => (c1, tr1, some e)
    | (c1, tr1, none) =>
      let (c2, tr2, err2) := processChunks c1 behav (i + 1) rest
      (c2, tr1 ++ tr2, err2)

/-- MatrixClient.listen_for_events (one poll): reads response[end] and
stores it as the cursor (raising KeyError when absent, before any other
step), then iterates response[chunk] (KeyError when absent) dispatching each
chunk as in processChunk.  There is no exception handler: every raised error
escapes to the caller. -/
def Client.listen_for_events (c : Client) (response : EventStreamResponse)
    (behav : Behaviour) : Client × List TraceStep × Option PyError :=
  match response.endToken with
  | none => (c, [], some (PyError.keyError "end"))
  | some e =>
    let c1 := { c with endToken := some e }
    match response.chunk with
    | none => (c1, [], some (PyError.keyError "chunk"))
    | some chunks => processChunks c1 behav 0 chunks

/-- Specification-side description (from the spec's fan-out wording, for the
refinement theorem about the poll dispatch) of what one chunk at index i
should produce when no listener fails: every global listener invoked in
registration order, then — when the chunk carries a room_id — the append to
that room's event log followed by that room's listeners in registration
order, the room's listener list being read from the registry held before the
poll started (a room absent there contributes no listeners, matching the
blank room _mkroom would create). -/
def specChunkDispatch (c : Client) (i : Nat) (ev : Event) : List TraceStep :=
  c.listeners.map (TraceStep.globalInvoke i) ++
    match ev.room_id with
    | none => []
    | some rid =>
      TraceStep.append i rid ::
        (registryListeners c rid).map (TraceStep.roomInvoke i)

/-- Specification-side description of a whole poll's dispatch: the chunks in
server response order, each producing its specChunkDispatch segment. -/
def specDispatch (c : Client) (i : Nat) : List Event → List TraceStep
  | [] => []
  | ev :: rest => specChunkDispatch c i ev ++ specDispatch c (i + 1) rest

/-- Room.leave: calls Transport's leave_room (outcome passed in), then runs
self.client.rooms.remove(self.room_id) and returns True; an
except-MatrixRequestError handler returns False.  self.client.rooms is a
dict and dict objects have no remove method, so on the success path the
attribute access raises AttributeError (the registry is left as it was, and
AttributeError is not caught by the MatrixRequestError handler). -/
def Room.leave (room : Room) (c : Client)
    (outcome : Except MatrixRequestError Unit) :
    Client × Except PyError Bool :=
  match outcome with
  | Except.error _ => (c, Except.ok false)
  | Except.ok _ => (c, Except.error (PyError.attributeError "remove"))

/-- The arguments of one Transport kick_user call (room id and user id; the
underlying api.kick_user is called with exactly these two). -/
structure KickCall where
  room_id : String
  user_id : String
deriving DecidableEq, Repr

/-- Room.kick_user(user_id, reason=""): calls api.kick_user(self.room_id,
user_id) — the reason parameter is accepted but not forwarded — and returns
True, or False when the call raises MatrixRequestError.  Returns the
Transport call made together with the boolean result; the Room object is
not mutated. -/
def Room.kick_user (room : Room) (user_id : String) (reason : String)
    (outcome : Except MatrixRequestError Unit) : KickCall × Bool :=
  ({ room_id := room.room_id, user_id := user_id },
   match outcome with
   | Except.ok _ => true
   | Except.error _ => false)

/-- Does this state chunk pass the guard
if content in chunk and aliases in chunk[content]? -/
def hasAliasesField (chunk : Event) : Bool :=
  match chunk.content with
  | some cont => cont.aliases.isSome
  | none => false

/-- The scan loop of Room.update_aliases over the room-state chunks: at the
first chunk carrying content.aliases, return True and the new aliases when
they differ from the cached value, else return False; when no chunk matches,
the loop falls through and the Python function returns None (modelled as
Option.none). -/
def scanAliases (cached : List String) :
    List Event → Option (Bool × List String)
  | [] => none
  | chunk :: rest =>
    match chunk.content with
    | none => scanAliases cached rest
    | some cont =>
      match cont.aliases with
      | none => scanAliases cached rest
      | some al =>
        if al ≠ cached then some (true, al) else some (false, cached)

/-- Room.update_aliases: fetches the full room state (outcome passed in) and
scans it; on MatrixRequestError returns False.  Returns the room (with its
aliases cache possibly updated) and the returned value (none models Python's
implicit None when no chunk matches). -/
def Room.update_aliases (room : Room)
    (outcome : Except MatrixRequestError (List Event)) :
    Room × Option Bool :=
  match outcome with
  | Except.error _ => (room, some false)
  | Except.ok response =>
    match scanAliases room.aliases response with
    | none => (room, none)
    | some (b, al) => ({ room with aliases := al }, some b)

/-- A media-upload response: the content_uri key, possibly absent. -/
structure UploadResponse where
  content_uri : Option String
deriving DecidableEq, Repr

/-- MatrixClient.upload: calls Transport's media_upload (outcome passed in);
when the response carries content_uri, returns it; when it does not, raises
MatrixUnexpectedResponse (not caught by the except-MatrixRequestError
handler, see PyError); when the Transport call raises MatrixRequestError e,
re-raises MatrixRequestError with the same code and an
Upload-failed-prefixed message. -/
def Client.upload (outcome : Except MatrixRequestError UploadResponse) :
    Except PyError String :=
  match outcome with
  | Except.ok response =>
    match response.content_uri with
    | some uri => Except.ok uri
    | none => Except.error (PyError.matrixUnexpectedResponse
        "The upload was successful, but content_uri wasn't found.")
  | Except.error e => Except.error
      (PyError.matrixRequestError e.code ("Upload failed: " ++ e.content))

/-! ### Concrete sample values used by witnesses and counterexamples -/

/-- A plain message event carrying a room id. -/
def sampleMessage : Event :=
  { type := some "m.room.message", room_id := some "!a:x", content := none }

/-- A message event carrying no room id. -/
def samplePlainEvent : Event :=
  { type := some "m.room.message", room_id := none, content := none }

/-- A state event with no type key. -/
def sampleUntypedEvent : Event :=
  { type := none, room_id := none, content := none }

/-- A state event of a type the state projection does not know. -/
def sampleUnknownEvent : Event :=
  { type := some "m.room.member", room_id := none, content := none }

/-- An aliases state event (first value). -/
def sampleAliasX : Event :=
  { type := some "m.room.aliases", room_id := some "!a:x",
    content := some { name := none, topic := none, aliases := some ["#x:hs"] } }

/-- An aliases state event (a different value). -/
def sampleAliasY : Event :=
  { type := some "m.room.aliases", room_id := some "!a:x",
    content := some { name := none, topic := none, aliases := some ["#y:hs"] } }

/-- A room already populated with one logged event and one listener. -/
def sampleRoom : Room :=
  { room_id := "!a:x", listeners := [7], events := [sampleMessage],
    name := some "Lobby", aliases := [], topic := none }

/-- A client whose registry holds sampleRoom and which has two global
listeners. -/
def sampleClient : Client :=
  { listeners := [0, 1], rooms := [("!a:x", sampleRoom)],
    endToken := some "tok1" }

/-- A listener behaviour under which no listener ever raises. -/
def quietBehaviour : Behaviour := fun _ _ => false

/-- A listener behaviour under which exactly listener 0 raises. -/
def failZeroBehaviour : Behaviour := fun lid _ => lid == 0

/-! ### Association-list (Python dict) lemmas -/

theorem dictLookup_insert (d : RoomsDict) (k key : String) (v : Room) :
    dictLookup (dictInsert d k v) key =
      if k = key then some v else dictLookup d key := by
  induction d with
  | nil => simp [dictInsert, dictLookup]
  | cons p rest ih =>
    obtain ⟨k0, v0⟩ := p
    simp only [dictInsert]
    by_cases h0 : k0 = k
    · subst h0
      by_cases hk : k0 = key <;> simp [dictLookup, hk]
    · by_cases hk : k0 = key
      · subst hk
        have hne : ¬ k = k0 := fun h => h0 h.symm
        simp [dictLookup, h0, ih, hne]
      · simp [dictLookup, h0, hk, ih]

theorem dictLookup_appendEvent (d : RoomsDict) (k key : String) (ev : Event) :
    dictLookup (dictAppendEvent d k ev) key =
      if k = key then (dictLookup d key).map (appendToRoom ev)
      else dictLookup d key := by
  induction d with
  | nil => simp [dictAppendEvent, dictLookup]
  | cons p rest ih =>
    obtain ⟨k0, v0⟩ := p
    simp only [dictAppendEvent]
    by_cases h0 : k0 = k
    · subst h0
      by_cases hk : k0 = key <;> simp [dictLookup, hk]
    · by_cases hk : k0 = key
      · subst hk
        have hne : ¬ k = k0 := fun h => h0 h.symm
        simp [dictLookup, h0, ih, hne]
      · simp [dictLookup, h0, hk, ih]

theorem Room.listeners_appendToRoom (ev : Event) (r : Room) :
    (appendToRoom ev r).listeners = r.listeners := rfl

theorem registryListeners_appendEvent (c : Client) (k rid : String) (ev : Event) :
    registryListeners { c with rooms := dictAppendEvent c.rooms k ev } rid =
      registryListeners c rid := by
  unfold registryListeners
  simp only [dictLookup_appendEvent]
  by_cases h : k = rid
  · subst h
    cases dictLookup c.rooms k <;> simp [appendToRoom]
  · simp [h]

theorem registryListeners_mkroom (c : Client) (k rid : String)
    (habs : dictLookup c.rooms k = none) :
    registryListeners (c.mkroom k).1 rid = registryListeners c rid := by
  unfold registryListeners Client.mkroom
  simp only [dictLookup_insert]
  by_cases h : k = rid
  · subst h
    simp [habs, Room.init]
  · simp [h]

/-! ### Claim theorems -/

/-- C2: the claim says Room.leave returns a boolean, removing the room from
the registry on Transport success; in the code, the success path runs
rooms.remove(room_id) on the registry dict, which has no remove method, so
an AttributeError is raised instead (the registry entry stays); only the
failure path honours the boolean contract, returning False with the
registry untouched. -/
theorem c2_leave_attribute_error (room : Room) (c : Client) :
    Room.leave room c (Except.ok ()) =
      (c, Except.error (PyError.attributeError "remove"))
    ∧ ∀ e : MatrixRequestError,
        Room.leave room c (Except.error e) = (c, Except.ok false) :=
  ⟨rfl, fun _ => rfl⟩

/-- C10: Room.kick_user ignores its reason argument — for any two reason
strings the Transport call made (room id and user id only) and the boolean
result are identical, and the Room object is not mutated either way. -/
theorem c10_kick_reason_not_forwarded (room : Room) (user_id r1 r2 : String)
    (outcome : Except MatrixRequestError Unit) :
    Room.kick_user room user_id r1 outcome =
      Room.kick_user room user_id r2 outcome ∧
    (Room.kick_user room user_id r1 outcome).1 =
      { room_id := room.room_id, user_id := user_id } :=
  ⟨rfl, rfl⟩

/-- C9: upload surfaces both error kinds and never swallows them — a
successful Transport response lacking content_uri raises
MatrixUnexpectedResponse; a Transport MatrixRequestError is re-raised as a
MatrixRequestError (same code); a successful response carrying content_uri
returns that string. -/
theorem c9_upload_errors_surfaced
    (outcome : Except MatrixRequestError UploadResponse) :
    (∀ resp uri, outcome = Except.ok resp → resp.content_uri = some uri →
      Client.upload outcome = Except.ok uri)
    ∧ (∀ resp, outcome = Except.ok resp → resp.content_uri = none →
      Client.upload outcome = Except.error (PyError.matrixUnexpectedResponse
        "The upload was successful, but content_uri wasn't found."))
    ∧ (∀ e, outcome = Except.error e →
      Client.upload outcome = Except.error
        (PyError.matrixRequestError e.code ("Upload failed: " ++ e.content))) := by
  refine ⟨?_, ?_, ?_⟩
  · rintro ⟨uri0⟩ uri rfl h
    simp only at h
    subst h
    rfl
  · rintro ⟨uri0⟩ rfl h
    simp only at h
    subst h
    rfl
  · rintro e rfl
    rfl

/-- Witness for c9_upload_errors_surfaced at concrete inputs: a response
with content_uri returns it, one without raises MatrixUnexpectedResponse,
and a Transport error is re-raised as a MatrixRequestError. -/
theorem c9_upload_errors_surfaced_witness :
    Client.upload (Except.ok { content_uri := some "mxc://hs/abc" }) =
      Except.ok "mxc://hs/abc"
    ∧ Client.upload (Except.ok { content_uri := none }) =
      Except.error (PyError.matrixUnexpectedResponse
        "The upload was successful, but content_uri wasn't found.")
    ∧ Client.upload (Except.error { code := 403, content := "denied" }) =
      Except.error (PyError.matrixRequestError 403 ("Upload failed: " ++ "denied")) :=
  ⟨(c9_upload_errors_surfaced (Except.ok { content_uri := some "mxc://hs/abc" })).1
      { content_uri := some "mxc://hs/abc" } "mxc://hs/abc" rfl rfl,
   (c9_upload_errors_surfaced (Except.ok { content_uri := none })).2.1
      { content_uri := none } rfl rfl,
   (c9_upload_errors_surfaced (Except.error { code := 403, content := "denied" })).2.2
      { code := 403, content := "denied" } rfl⟩

/-- C7: the state-projection rule is idempotent — applying a state event
twice leaves exactly the room state that applying it once leaves — and
events with no type key or an unknown type leave the room unchanged (and
raise nothing). -/
theorem c7_state_projection_idempotent (r : Room) (ev : Event) :
    (processStateEvent ev (processStateEvent ev r).1).1 = (processStateEvent ev r).1
    ∧ (ev.type = none → processStateEvent ev r = (r, none))
    ∧ (∀ t, ev.type = some t → t ≠ "m.room.name" → t ≠ "m.room.topic" →
        t ≠ "m.room.aliases" → processStateEvent ev r = (r, none)) := by
  obtain ⟨ty, rid, cont⟩ := ev
  refine ⟨?_, ?_, ?_⟩
  · cases ty with
    | none => rfl
    | some t =>
      by_cases h1 : t = "m.room.name"
      · subst h1
        cases cont with
        | none => simp [processStateEvent]
        | some co =>
          obtain ⟨nm, tp, al⟩ := co
          cases nm <;> simp [processStateEvent]
      · by_cases h2 : t = "m.room.topic"
        · subst h2
          cases cont with
          | none => simp [processStateEvent]
          | some co =>
            obtain ⟨nm, tp, al⟩ := co
            cases tp <;> simp [processStateEvent]
        · by_cases h3 : t = "m.room.aliases"
          · subst h3
            cases cont with
            | none => simp [processStateEvent]
            | some co =>
              obtain ⟨nm, tp, al⟩ := co
              cases al <;> simp [processStateEvent]
          · simp [processStateEvent, h1, h2, h3]
  · intro h
    simp only at h
    subst h
    rfl
  · intro t h h1 h2 h3
    simp only at h
    subst h
    simp [processStateEvent, h1, h2, h3]

/-- Witness for c7_state_projection_idempotent at concrete inputs: applying
a concrete aliases event twice to sampleRoom equals applying it once, an
event with no type key leaves sampleRoom unchanged, and an event of unknown
type leaves sampleRoom unchanged. -/
theorem c7_state_projection_idempotent_witness :
    (processStateEvent sampleAliasX
        (processStateEvent sampleAliasX sampleRoom).1).1 =
      (processStateEvent sampleAliasX sampleRoom).1
    ∧ processStateEvent sampleUntypedEvent sampleRoom = (sampleRoom, none)
    ∧ processStateEvent sampleUnknownEvent sampleRoom = (sampleRoom, none) :=
  ⟨(c7_state_projection_idempotent sampleRoom sampleAliasX).1,
   (c7_state_projection_idempotent sampleRoom sampleUntypedEvent).2.1 rfl,
   (c7_state_projection_idempotent sampleRoom sampleUnknownEvent).2.2
      "m.room.member" rfl (by decide) (by decide) (by decide)⟩

/-- Skipping state chunks with no content.aliases field does not change the
result of the update_aliases scan. -/
theorem scanAliases_no_match_append (cached : List String) (pre l : List Event)
    (hpre : ∀ ch ∈ pre, hasAliasesField ch = false) :
    scanAliases cached (pre ++ l) = scanAliases cached l := by
  induction pre with
  | nil => rfl
  | cons ch rest ih =>
    have hch := hpre ch (List.mem_cons_self ch rest)
    have hrest : ∀ x ∈ rest, hasAliasesField x = false :=
      fun x hx => hpre x (List.mem_cons_of_mem ch hx)
    obtain ⟨ty, rid, cont⟩ := ch
    cases cont with
    | none => simpa [scanAliases] using ih hrest
    | some co =>
      obtain ⟨nm, tp, al⟩ := co
      cases al with
      | none => simpa [scanAliases] using ih hrest
      | some a => simp [hasAliasesField] at hch

/-- C8: given a room-state response whose first alias-bearing chunk is c1
(all earlier chunks carry no content.aliases), the entire result of
Room.update_aliases — return value and aliases-cache update — is the same
for any two continuations of the response after c1: the later alias-bearing
chunks are never examined. -/
theorem c8_first_match_alias_scan (room : Room) (pre post1 post2 : List Event)
    (c1 : Event)
    (hpre : ∀ ch ∈ pre, hasAliasesField ch = false)
    (hc1 : hasAliasesField c1 = true) :
    Room.update_aliases room (Except.ok (pre ++ c1 :: post1)) =
      Room.update_aliases room (Except.ok (pre ++ c1 :: post2)) := by
  simp only [Room.update_aliases]
  rw [scanAliases_no_match_append _ _ _ hpre,
    scanAliases_no_match_append _ _ _ hpre]
  obtain ⟨ty, rid, cont⟩ := c1
  cases cont with
  | none => simp [hasAliasesField] at hc1
  | some co =>
    obtain ⟨nm, tp, al⟩ := co
    cases al with
    | none => simp [hasAliasesField] at hc1
    | some a => simp [scanAliases]

/-- Witness for c8_first_match_alias_scan at concrete inputs: with one
non-matching chunk followed by an aliases chunk, appending a second,
different aliases chunk does not change the update_aliases result. -/
theorem c8_first_match_alias_scan_witness :
    Room.update_aliases sampleRoom
        (Except.ok ([samplePlainEvent] ++ sampleAliasX :: [sampleAliasY])) =
      Room.update_aliases sampleRoom
        (Except.ok ([samplePlainEvent] ++ sampleAliasX :: [])) :=
  c8_first_match_alias_scan sampleRoom [samplePlainEvent] [sampleAliasY] []
    sampleAliasX (by decide) (by decide)

/-- When no listener raises on ev, the dispatch loop invokes every listener
of the list, in order, and raises nothing. -/
theorem runListeners_no_failure (behav : Behaviour) (mk : Nat → TraceStep)
    (ev : Event) (ls : List Nat) (hnf : ∀ lid, behav lid ev = false) :
    runListeners behav mk ev ls = (ls.map mk, none) := by
  induction ls with
  | nil => rfl
  | cons lid rest ih => simp [runListeners, hnf lid, ih]

/-- The poll loop's registry mutation for one chunk leaves the global
listener list and the sync cursor alone. -/
theorem pollRegistryUpdate_frame (c : Client) (rid : String) (ev : Event) :
    (pollRegistryUpdate c rid ev).endToken = c.endToken
    ∧ (pollRegistryUpdate c rid ev).listeners = c.listeners := by
  unfold pollRegistryUpdate
  by_cases hcon : dictContains c.rooms rid <;> simp [hcon, Client.mkroom]

/-- Processing one chunk never touches the sync cursor (for any listener
behaviour, failing or not). -/
theorem processChunk_endToken (c : Client) (behav : Behaviour) (i : Nat)
    (ev : Event) :
    ((processChunk c behav i ev).1).endToken = c.endToken := by
  unfold processChunk
  cases runListeners behav (TraceStep.globalInvoke i) ev c.listeners with
  | mk tr1 err1 =>
    cases err1 with
    | some e => rfl
    | none =>
      cases hrid : ev.room_id with
      | none => rfl
      | some rid =>
        dsimp only
        cases runListeners behav (TraceStep.roomInvoke i) ev
            (registryListeners (pollRegistryUpdate c rid ev) rid) with
        | mk tr3 err3 => exact (pollRegistryUpdate_frame c rid ev).1

/-- The chunk loop of one poll never touches the sync cursor. -/
theorem processChunks_endToken (chunks : List Event) (c : Client)
    (behav : Behaviour) (i : Nat) :
    ((processChunks c behav i chunks).1).endToken = c.endToken := by
  induction chunks generalizing c i with
  | nil => rfl
  | cons ev rest ih =>
    have h1 := processChunk_endToken c behav i ev
    unfold processChunks
    cases hpc : processChunk c behav i ev with
    | mk c1 p =>
      rw [hpc] at h1
      obtain ⟨tr1, err1⟩ := p
      cases err1 with
      | some e => exact h1
      | none =>
        dsimp only
        have h2 := ih c1 (i + 1)
        cases hrec : processChunks c1 behav (i + 1) rest with
        | mk c2 q =>
          rw [hrec] at h2
          obtain ⟨tr2, err2⟩ := q
          exact h2.trans h1

/-- C5: whenever the event-stream response carries an end token, the cursor
after listen_for_events equals that token — the update happens before and
independently of any chunk processing (it holds for an empty or absent
chunk list and for any listener behaviour, even one that raises).  Applied
to each call of a sequence of polls, the cursor after call N equals the end
field of response N. -/
theorem c5_cursor_advance (c : Client) (response : EventStreamResponse)
    (behav : Behaviour) (e : String) (he : response.endToken = some e) :
    ((c.listen_for_events response behav).1).endToken = some e := by
  unfold Client.listen_for_events
  rw [he]
  cases response.chunk with
  | none => rfl
  | some chunks => simpa using processChunks_endToken chunks _ behav 0

/-- Witness for c5_cursor_advance at concrete inputs: polling sampleClient
with a response whose end token is tok2 and whose chunk list is empty moves
the cursor to tok2. -/
theorem c5_cursor_advance_witness :
    ((sampleClient.listen_for_events
        { endToken := some "tok2", chunk := some [] } quietBehaviour).1).endToken =
      some "tok2" :=
  c5_cursor_advance sampleClient { endToken := some "tok2", chunk := some [] }
    quietBehaviour "tok2" rfl

/-- C1 counterexample: the claim says that creating a room for an id already
in the registry returns the existing instance with its event log and
listener list unchanged; but _mkroom on sampleClient, whose registry already
maps the id to a room with one logged event and one listener, replaces the
registry entry and returns a fresh room with empty event log and empty
listener list. -/
theorem c1_room_creation_counterexample :
    dictLookup ((sampleClient.mkroom "!a:x").1).rooms "!a:x" ≠
      dictLookup sampleClient.rooms "!a:x"
    ∧ ((sampleClient.mkroom "!a:x").2).events = []
    ∧ ((sampleClient.mkroom "!a:x").2).listeners = []
    ∧ (dictLookup sampleClient.rooms "!a:x").map Room.events = some [sampleMessage]
    ∧ (dictLookup sampleClient.rooms "!a:x").map Room.listeners = some [7] := by
  refine ⟨by decide, rfl, rfl, by decide, by decide⟩

/-- C1 (amended): _mkroom is not idempotent — called on an id already in the
registry (as bootstrap, create_room and join_room do unconditionally) it
replaces the entry with a fresh Room whose event log and listener list are
empty, and returns that fresh instance; only the poll loop is guarded: for a
chunk whose room id is already registered it does not call _mkroom, so the
registry keeps the existing Room with its listener list intact and the chunk
appended to its event log. -/
theorem c1_room_creation_amended (c : Client) (rid : String) (r : Room)
    (behav : Behaviour) (i : Nat) (ev : Event)
    (hr : dictLookup c.rooms rid = some r)
    (hev : ev.room_id = some rid)
    (hnf : ∀ lid e, behav lid e = false) :
    (c.mkroom rid).2 = Room.init rid
    ∧ dictLookup ((c.mkroom rid).1).rooms rid = some (Room.init rid)
    ∧ dictLookup ((processChunk c behav i ev).1).rooms rid =
        some { r with events := r.events ++ [ev] } := by
  refine ⟨rfl, ?_, ?_⟩
  · unfold Client.mkroom
    simp [dictLookup_insert]
  · have hcon : dictContains c.rooms rid = true := by
      simp [dictContains, hr]
    unfold processChunk
    rw [runListeners_no_failure behav _ ev c.listeners (fun lid => hnf lid ev)]
    dsimp only
    rw [hev]
    dsimp only
    cases runListeners behav (TraceStep.roomInvoke i) ev
        (registryListeners (pollRegistryUpdate c rid ev) rid) with
    | mk tr3 err3 =>
      show dictLookup (pollRegistryUpdate c rid ev).rooms rid = _
      unfold pollRegistryUpdate
      simp only [hcon, if_true]
      rw [dictLookup_appendEvent]
      simp [hr, appendToRoom]

/-- Witness for c1_room_creation_amended at concrete inputs: on
sampleClient, whose registry holds the room under its id, the poll loop
keeps the entry and appends the chunk, while _mkroom returns and stores the
blank room. -/
theorem c1_room_creation_amended_witness :
    (sampleClient.mkroom "!a:x").2 = Room.init "!a:x"
    ∧ dictLookup ((sampleClient.mkroom "!a:x").1).rooms "!a:x" =
        some (Room.init "!a:x")
    ∧ dictLookup ((processChunk sampleClient quietBehaviour 0 sampleMessage).1).rooms
        "!a:x" = some { sampleRoom with events := sampleRoom.events ++ [sampleMessage] } :=
  c1_room_creation_amended sampleClient "!a:x" sampleRoom quietBehaviour 0
    sampleMessage (by decide) rfl (fun _ _ => rfl)

/-- Every error the state-projection rule can raise is a KeyError. -/
theorem processStateEvent_err (ev : Event) (r : Room) (e : PyError)
    (h : (processStateEvent ev r).2 = some e) :
    ∃ k, e = PyError.keyError k := by
  unfold processStateEvent at h
  repeat' split at h
  all_goals first
  | exact ⟨_, ((Option.some.injEq _ _).mp h).symm⟩
  | simp_all

/-- Every error the state-event loop of _sync can raise is a KeyError. -/
theorem processStateEvents_err (sts : List Event) (rooms : RoomsDict)
    (rid : String) (e : PyError)
    (h : (processStateEvents rooms rid sts).2 = some e) :
    ∃ k, e = PyError.keyError k := by
  induction sts generalizing rooms with
  | nil => simp [processStateEvents] at h
  | cons ev rest ih =>
    unfold processStateEvents at h
    cases hl : dictLookup rooms rid with
    | none => rw [hl] at h; simp at h
    | some r =>
      rw [hl] at h
      dsimp only at h
      cases hp : processStateEvent ev r with
      | mk r1 err =>
        rw [hp] at h
        cases err with
        | some e1 =>
          dsimp only at h
          have he : e1 = e := by simpa using h
          subst he
          exact processStateEvent_err ev r e1 (by rw [hp])
        | none =>
          dsimp only at h
          exact ih _ h

/-- Every error the room loop of _sync can raise is a KeyError. -/
theorem syncRooms_err (rds : List RoomDescriptor) (c : Client) (e : PyError)
    (h : (syncRooms c rds).2 = some e) : ∃ k, e = PyError.keyError k := by
  induction rds generalizing c with
  | nil => simp [syncRooms] at h
  | cons rd rest ih =>
    unfold syncRooms at h
    cases hrid : rd.room_id with
    | none => rw [hrid] at h; exact ⟨"room_id", by simpa using h.symm⟩
    | some rid =>
      rw [hrid] at h
      dsimp only at h
      cases hmc : rd.messagesChunk with
      | none => rw [hmc] at h; exact ⟨"messages", by simpa using h.symm⟩
      | some mc =>
        rw [hmc] at h
        cases mc with
        | none => exact ⟨"chunk", by simpa using h.symm⟩
        | some chunks =>
          dsimp only at h
          cases hst : rd.state with
          | none => rw [hst] at h; exact ⟨"state", by simpa using h.symm⟩
          | some sts =>
            rw [hst] at h
            dsimp only at h
            cases hps : processStateEvents _ rid sts with
            | mk d err =>
              rw [hps] at h
              cases err with
              | some e1 =>
                dsimp only at h
                have he : e1 = e := by simpa using h
                subst he
                exact processStateEvents_err sts _ rid e1 (by rw [hps])
              | none =>
                dsimp only at h
                exact ih _ h

/-- The room loop of _sync never touches the already-stored cursor. -/
theorem syncRooms_endToken (rds : List RoomDescriptor) (c : Client) :
    ((syncRooms c rds).1).endToken = c.endToken := by
  induction rds generalizing c with
  | nil => rfl
  | cons rd rest ih =>
    unfold syncRooms
    cases rd.room_id with
    | none => rfl
    | some rid =>
      dsimp only
      cases rd.messagesChunk with
      | none => rfl
      | some mc =>
        cases mc with
        | none => rfl
        | some chunks =>
          dsimp only
          cases rd.state with
          | none => rfl
          | some sts =>
            dsimp only
            cases processStateEvents _ rid sts with
            | mk d err =>
              cases err with
              | some e1 => rfl
              | none => exact ih _

/-- The bootstrap as a whole raises nothing: every KeyError from its body is
caught by the except-KeyError-pass handler. -/
theorem sync_no_raise (c : Client) (resp : InitialSyncResponse) :
    (c.sync resp).2 = none := by
  unfold Client.sync
  cases resp.endToken with
  | none => rfl
  | some e =>
    cases resp.rooms with
    | none => rfl
    | some rds =>
      dsimp only
      cases hs : syncRooms { c with endToken := some e } rds with
      | mk c1 err =>
        cases err with
        | none => rfl
        | some e1 =>
          obtain ⟨k, hk⟩ := syncRooms_err rds _ e1 (by rw [hs])
          subst hk
          rfl

/-- C3 counterexample: the claim says every bootstrap or poll response
missing an expected key is swallowed silently and the operation returns
normally; but a poll (listen_for_events) whose response has no end key
raises KeyError to the caller. -/
theorem c3_counterexample :
    (sampleClient.listen_for_events
        { endToken := none, chunk := some [samplePlainEvent] }
        quietBehaviour).2.2 = some (PyError.keyError "end") := rfl

/-- C3 (amended): bootstrap (_sync) swallows every missing-key condition
silently — it never raises, and the state already applied (in particular the
stored cursor) is retained; the poll loop has no such handler: a poll
response with no end key raises KeyError before any state change, and one
with an end key but no chunk key raises KeyError after the cursor update.
Only a chunk's missing room_id is tolerated during a poll. -/
theorem c3_missing_fields_policy (c : Client) (resp : InitialSyncResponse)
    (resp2 : EventStreamResponse) (behav : Behaviour) :
    (c.sync resp).2 = none
    ∧ (∀ e, resp.endToken = some e → ((c.sync resp).1).endToken = some e)
    ∧ (resp2.endToken = none →
        c.listen_for_events resp2 behav = (c, [], some (PyError.keyError "end")))
    ∧ (∀ e, resp2.endToken = some e → resp2.chunk = none →
        c.listen_for_events resp2 behav =
          ({ c with endToken := some e }, [], some (PyError.keyError "chunk"))) := by
  refine ⟨sync_no_raise c resp, ?_, ?_, ?_⟩
  · intro e he
    unfold Client.sync
    rw [he]
    cases resp.rooms with
    | none => rfl
    | some rds =>
      dsimp only
      have hend := syncRooms_endToken rds { c with endToken := some e }
      cases hs : syncRooms { c with endToken := some e } rds with
      | mk c1 err =>
        rw [hs] at hend
        cases err with
        | none => exact hend
        | some e1 =>
          cases e1 <;> exact hend
  · intro hnone
    unfold Client.listen_for_events
    rw [hnone]
  · intro e he hchunk
    unfold Client.listen_for_events
    rw [he]
    dsimp only
    rw [hchunk]

/-- Witness for c3_missing_fields_policy at concrete inputs: a bootstrap
response with an end token but no rooms key raises nothing and keeps the
cursor; a poll response with no end key raises KeyError end; a poll response
with an end token but no chunk key raises KeyError chunk after moving the
cursor. -/
theorem c3_missing_fields_policy_witness :
    (sampleClient.sync { endToken := some "tok9", rooms := none }).2 = none
    ∧ ((sampleClient.sync { endToken := some "tok9", rooms := none }).1).endToken =
        some "tok9"
    ∧ sampleClient.listen_for_events { endToken := none, chunk := none }
        quietBehaviour = (sampleClient, [], some (PyError.keyError "end"))
    ∧ sampleClient.listen_for_events { endToken := some "tok9", chunk := none }
        quietBehaviour =
        ({ sampleClient with endToken := some "tok9" }, [],
         some (PyError.keyError "chunk")) :=
  ⟨(c3_missing_fields_policy sampleClient { endToken := some "tok9", rooms := none }
      { endToken := none, chunk := none } quietBehaviour).1,
   (c3_missing_fields_policy sampleClient { endToken := some "tok9", rooms := none }
      { endToken := none, chunk := none } quietBehaviour).2.1 "tok9" rfl,
   (c3_missing_fields_policy sampleClient { endToken := some "tok9", rooms := none }
      { endToken := none, chunk := none } quietBehaviour).2.2.1 rfl,
   (c3_missing_fields_policy sampleClient { endToken := some "tok9", rooms := none }
      { endToken := some "tok9", chunk := none } quietBehaviour).2.2.2 "tok9" rfl rfl⟩

/-- When the listeners before lid do not raise on ev and lid does, the
dispatch loop invokes exactly the prefix up to and including lid, then
propagates lid's exception: the listeners after lid are never invoked. -/
theorem runListeners_failure (behav : Behaviour) (mk : Nat → TraceStep)
    (ev : Event) (pre post : List Nat) (lid : Nat)
    (hpre : ∀ l ∈ pre, behav l ev = false) (hlid : behav lid ev = true) :
    runListeners behav mk ev (pre ++ lid :: post) =
      ((pre ++ [lid]).map mk, some (PyError.listenerError lid)) := by
  induction pre with
  | nil => simp [runListeners, hlid]
  | cons l rest ih =>
    have hl := hpre l (List.mem_cons_self l rest)
    have hrest : ∀ x ∈ rest, behav x ev = false :=
      fun x hx => hpre x (List.mem_cons_of_mem l hx)
    simp [runListeners, hl, ih hrest]

/-- C4 counterexample: the claim says an exception raised by one listener
does not prevent the invocation of the listeners registered after it; but on
sampleClient (global listeners 0 and 1, listener 0 raising) the poll trace
contains only the invocation of listener 0 — listener 1 is never invoked —
and the listener exception escapes to the caller. -/
theorem c4_counterexample :
    (sampleClient.listen_for_events
        { endToken := some "tok2", chunk := some [samplePlainEvent] }
        failZeroBehaviour).2.1 = [TraceStep.globalInvoke 0 0]
    ∧ (sampleClient.listen_for_events
        { endToken := some "tok2", chunk := some [samplePlainEvent] }
        failZeroBehaviour).2.2 = some (PyError.listenerError 0) :=
  ⟨rfl, rfl⟩

/-- C4 (amended): a listener exception aborts the fan-out — with global
listener list pre ++ lid :: post, where no listener of pre raises on the
first chunk and lid does, the poll invokes exactly pre and then lid, the
listeners after lid (and all later chunks) are never reached, and the
exception propagates out of listen_for_events; the cursor update has already
happened. -/
theorem c4_listener_exception_aborts (c : Client) (pre post : List Nat)
    (lid : Nat) (ev : Event) (rest : List Event) (behav : Behaviour)
    (response : EventStreamResponse) (e : String)
    (hls : c.listeners = pre ++ lid :: post)
    (hpre : ∀ l ∈ pre, behav l ev = false)
    (hlid : behav lid ev = true)
    (he : response.endToken = some e)
    (hchunk : response.chunk = some (ev :: rest)) :
    c.listen_for_events response behav =
      ({ c with endToken := some e },
       (pre ++ [lid]).map (TraceStep.globalInvoke 0),
       some (PyError.listenerError lid)) := by
  unfold Client.listen_for_events
  rw [he]
  dsimp only
  rw [hchunk]
  unfold processChunks processChunk
  dsimp only
  rw [hls, runListeners_failure behav _ ev pre post lid hpre hlid]

/-- Witness for c4_listener_exception_aborts at concrete inputs: on
sampleClient with listener 0 raising, the poll stops after invoking listener
0 on the first chunk and surfaces the listener exception. -/
theorem c4_listener_exception_aborts_witness :
    sampleClient.listen_for_events
        { endToken := some "tok2", chunk := some [sampleMessage] }
        failZeroBehaviour =
      ({ sampleClient with endToken := some "tok2" },
       ([] ++ [0]).map (TraceStep.globalInvoke 0),
       some (PyError.listenerError 0)) :=
  c4_listener_exception_aborts sampleClient [] [1] 0 sampleMessage []
    failZeroBehaviour { endToken := some "tok2", chunk := some [sampleMessage] }
    "tok2" rfl (fun l hl => absurd hl (List.not_mem_nil l)) rfl rfl rfl

/-- The poll loop's registry mutation for one chunk changes no room's
listener list (a room it creates is blank, so both sides read the empty
list). -/
theorem registryListeners_pollRegistryUpdate (c : Client) (k : String)
    (ev : Event) (rid : String) :
    registryListeners (pollRegistryUpdate c k ev) rid = registryListeners c rid := by
  unfold pollRegistryUpdate
  by_cases hcon : dictContains c.rooms k
  · simp only [hcon, if_true]
    exact registryListeners_appendEvent c k rid ev
  · simp only [hcon, if_false]
    have habs : dictLookup c.rooms k = none := by
      cases hx : dictLookup c.rooms k with
      | none => rfl
      | some r => exact absurd (by simp [dictContains, hx]) hcon
    exact (registryListeners_appendEvent (c.mkroom k).1 k rid ev).trans
      (registryListeners_mkroom c k rid habs)

/-- The specification-side chunk dispatch only depends on the client through
its global listener list and its per-room listener lists. -/
theorem specChunkDispatch_congr (c c1 : Client) (i : Nat) (ev : Event)
    (hl : c1.listeners = c.listeners)
    (hr : ∀ rid, registryListeners c1 rid = registryListeners c rid) :
    specChunkDispatch c1 i ev = specChunkDispatch c i ev := by
  unfold specChunkDispatch
  rw [hl]
  cases ev.room_id with
  | none => rfl
  | some rid =>
    dsimp only
    rw [hr rid]

/-- The specification-side poll dispatch only depends on the client through
its global listener list and its per-room listener lists. -/
theorem specDispatch_congr (chunks : List Event) (c c1 : Client) (i : Nat)
    (hl : c1.listeners = c.listeners)
    (hr : ∀ rid, registryListeners c1 rid = registryListeners c rid) :
    specDispatch c1 i chunks = specDispatch c i chunks := by
  induction chunks generalizing i with
  | nil => rfl
  | cons ev rest ih =>
    unfold specDispatch
    rw [specChunkDispatch_congr c c1 i ev hl hr, ih (i + 1)]

/-- With no failing listener, processing one chunk produces exactly the
specification-side dispatch segment, raises nothing, and preserves the
global listener list and every room's listener list. -/
theorem processChunk_no_failure (c : Client) (behav : Behaviour) (i : Nat)
    (ev : Event) (hnf : ∀ lid e, behav lid e = false) :
    (processChunk c behav i ev).2.1 = specChunkDispatch c i ev
    ∧ (processChunk c behav i ev).2.2 = none
    ∧ ((processChunk c behav i ev).1).listeners = c.listeners
    ∧ ∀ rid, registryListeners (processChunk c behav i ev).1 rid =
        registryListeners c rid := by
  unfold processChunk
  rw [runListeners_no_failure behav _ ev c.listeners (fun lid => hnf lid ev)]
  dsimp only
  cases hrid : ev.room_id with
  | none =>
    refine ⟨?_, rfl, rfl, fun rid => rfl⟩
    unfold specChunkDispatch
    rw [hrid]
    simp
  | some rid =>
    dsimp only
    rw [runListeners_no_failure behav (TraceStep.roomInvoke i) ev
      (registryListeners (pollRegistryUpdate c rid ev) rid) (fun lid => hnf lid ev)]
    dsimp only
    refine ⟨?_, rfl, (pollRegistryUpdate_frame c rid ev).2,
      fun r => registryListeners_pollRegistryUpdate c rid ev r⟩
    unfold specChunkDispatch
    rw [hrid]
    dsimp only
    rw [registryListeners_pollRegistryUpdate c rid ev rid]

/-- With no failing listener, the poll's chunk loop from index i produces
exactly the specification-side dispatch of the chunk list, raises nothing,
and preserves the global listener list and every room's listener list. -/
theorem processChunks_no_failure (chunks : List Event) (c : Client)
    (behav : Behaviour) (i : Nat) (hnf : ∀ lid e, behav lid e = false) :
    (processChunks c behav i chunks).2.1 = specDispatch c i chunks
    ∧ (processChunks c behav i chunks).2.2 = none
    ∧ ((processChunks c behav i chunks).1).listeners = c.listeners
    ∧ ∀ rid, registryListeners (processChunks c behav i chunks).1 rid =
        registryListeners c rid := by
  induction chunks generalizing c i with
  | nil => exact ⟨rfl, rfl, rfl, fun rid => rfl⟩
  | cons ev rest ih =>
    have hpc := processChunk_no_failure c behav i ev hnf
    unfold processChunks
    cases hp : processChunk c behav i ev with
    | mk c1 q =>
      rw [hp] at hpc
      obtain ⟨tr1, err1⟩ := q
      obtain ⟨htr1, herr1, hl1, hrl1⟩ := hpc
      dsimp only at htr1 herr1 hl1 hrl1
      cases err1 with
      | some e => exact absurd herr1 (by simp)
      | none =>
        dsimp only
        have hrec := ih c1 (i + 1)
        cases hq : processChunks c1 behav (i + 1) rest with
        | mk c2 r =>
          rw [hq] at hrec
          obtain ⟨tr2, err2⟩ := r
          obtain ⟨htr2, herr2, hl2, hrl2⟩ := hrec
          dsimp only at htr2 herr2 hl2 hrl2
          refine ⟨?_, herr2, hl2.trans hl1, fun rid => (hrl2 rid).trans (hrl1 rid)⟩
          dsimp only
          rw [htr1, htr2, specDispatch_congr rest c c1 (i + 1) hl1 hrl1]
          rfl

/-- C6: within one poll whose listeners all succeed, the dispatch trace is
exactly the specification order — chunks in server response order, and for
each chunk all global listeners in registration order, then (when the chunk
carries a room_id) the append of the chunk to that room's event log,
followed by that room's listeners in registration order. -/
theorem c6_fanout_ordering (c : Client) (response : EventStreamResponse)
    (behav : Behaviour) (e : String) (chunks : List Event)
    (he : response.endToken = some e) (hc : response.chunk = some chunks)
    (hnf : ∀ lid ev, behav lid ev = false) :
    (c.listen_for_events response behav).2.1 = specDispatch c 0 chunks := by
  unfold Client.listen_for_events
  rw [he]
  dsimp only
  rw [hc]
  have h := processChunks_no_failure chunks { c with endToken := some e } behav 0 hnf
  exact h.1.trans
    (specDispatch_congr chunks c { c with endToken := some e } 0 rfl (fun rid => rfl))

/-- Witness for c6_fanout_ordering at concrete inputs: polling sampleClient
(global listeners 0 and 1; room listener 7 on the registered room) with a
room chunk followed by a roomless chunk produces, by the theorem, the
specification dispatch, which evaluates to: global 0, global 1, append,
room 7 for chunk 0, then global 0, global 1 for chunk 1. -/
theorem c6_fanout_ordering_witness :
    (sampleClient.listen_for_events
        { endToken := some "tok2", chunk := some [sampleMessage, samplePlainEvent] }
        quietBehaviour).2.1 =
      specDispatch sampleClient 0 [sampleMessage, samplePlainEvent]
    ∧ specDispatch sampleClient 0 [sampleMessage, samplePlainEvent] =
      [TraceStep.globalInvoke 0 0, TraceStep.globalInvoke 0 1,
       TraceStep.append 0 "!a:x", TraceStep.roomInvoke 0 7,
       TraceStep.globalInvoke 1 0, TraceStep.globalInvoke 1 1] :=
  ⟨c6_fanout_ordering sampleClient
      { endToken := some "tok2", chunk := some [sampleMessage, samplePlainEvent] }
      quietBehaviour "tok2" [sampleMessage, samplePlainEvent] rfl rfl
      (fun _ _ => rfl),
   by decide⟩

end MatrixSDK
